import Mathlib

/-!
Shallow embedding of the CommandStation-EX polling core:
* `Sensors.cpp` — the sensor registry with its round-robin debounce scanner
  (`Sensor::checkAll`, `Sensor::create`, `Sensor::get`, `Sensor::remove`);
* the PCF8574 I2C expander driver — pin configuration, write/read of the
  output latch and input sample, and the background polling state machine
  (`PCF8574::_configure`, `_write`, `_read`, `_loop`).

The C++ linked registry with its raw `readingSensor` pointer is embedded as a
`List Sensor` plus an optional cursor index: pointer identity of a node
corresponds exactly to its index, `nextSensor` of the node at index `i` is the
node at `i + 1` (or null past the tail).  External collaborators (Arduino
`digitalRead`, the I2C transaction layer) are oracle parameters; bus traffic
issued by an operation is returned as an explicit list of `BusAction`s.
Bytes (`uint8_t`) are `Nat` values reduced mod 256 where the hardware would
truncate; `unsigned long` tick arithmetic wraps mod 2^32 (`usub32`).
Diagnostic logging and the conditionally compiled S88 bus hooks are external
and not modelled.
-/

/-- Arduino `LOW`. -/
def LOW : Int := 0

/-- Arduino `HIGH`. -/
def HIGH : Int := 1

/-- Persistent part of a sensor record (`struct SensorData`). -/
structure SensorData where
  snum : Int
  pin : Int
  pullUp : Int
deriving DecidableEq, Repr

/-- One sensor record: `SensorData` plus the dynamic debounce state
(`active`, `latchdelay`). -/
structure Sensor where
  data : SensorData
  active : Bool
  latchdelay : Nat
deriving DecidableEq, Repr

/-- The global registry: the linked list hanging off `Sensor::firstSensor`
together with the round-robin cursor `Sensor::readingSensor` (an index, or
`none` for the null pointer). -/
structure SensorState where
  sensors : List Sensor
  cursor : Option Nat
deriving DecidableEq, Repr

/-- The debounce decision `Sensor::checkAll` applies to the record under the
cursor, given the raw sample `raw` of its pin.  Returns the updated record and
the change event (new `active` value and sensor id) that is sent to the stream
when one is present. -/
def Sensor.checkOne (raw : Bool) (sen : Sensor) : Sensor × Option (Bool × Int) :=
  if (!raw) = sen.active then
    ({ sen with latchdelay := 0 }, none)
  else if sen.latchdelay < 127 then
    ({ sen with latchdelay := sen.latchdelay + 1 }, none)
  else
    ({ sen with active := !raw, latchdelay := 0 }, some (!raw, sen.data.snum))

/-- `Sensor::checkAll`: scan the record under the cursor (head if the cursor
is null), then advance the cursor.  `digitalRead` is the Arduino pin-sampling
oracle.  The out-of-range `get?` fallback is unreachable whenever the cursor
invariant holds (in C++ a stale cursor would be a dangling pointer). -/
def Sensor.checkAll (digitalRead : Int → Bool) (s : SensorState) :
    SensorState × Option (Bool × Int) :=
  match s.sensors with
  | [] => (s, none)
  | _ :: _ =>
    let i := s.cursor.getD 0
    match s.sensors.get? i with
    | none => (s, none)
    | some sen =>
      let r := Sensor.checkOne (digitalRead sen.data.pin) sen
      ({ sensors := s.sensors.set i r.1,
         cursor := if i + 1 < s.sensors.length then some (i + 1) else none },
       r.2)

/-- Index of the record found by the lookup loop of `Sensor::get` /
`Sensor::remove` (first record whose `data.snum` matches). -/
def Sensor.getIdx (n : Int) : List Sensor → Option Nat
  | [] => none
  | sen :: rest =>
    if sen.data.snum = n then some 0
    else (Sensor.getIdx n rest).map (· + 1)

/-- The field assignments `Sensor::create` performs on the (new or found)
record: store id and pin, normalise the pull-up flag through
`pullUp==0?LOW:HIGH`, and reset the dynamic debounce state. -/
def newSensor (snum pin pullUp : Int) : Sensor :=
  { data := { snum := snum, pin := pin, pullUp := if pullUp = 0 then LOW else HIGH },
    active := false,
    latchdelay := 0 }

/-- `Sensor::create`: upsert by id.  A found id is updated in place; an absent
id appends a freshly allocated record at the tail.  `allocOk` models whether
`calloc` succeeds; on allocation failure the function returns null with the
registry unchanged.  The `pinMode`/`digitalWrite` calls on the physical line
are external side effects and not modelled. -/
def Sensor.create (allocOk : Bool) (snum pin pullUp : Int) (s : SensorState) :
    Option Sensor × SensorState :=
  match Sensor.getIdx snum s.sensors with
  | some j =>
    let sen := newSensor snum pin pullUp
    (some sen, { s with sensors := s.sensors.set j sen })
  | none =>
    if allocOk then
      let sen := newSensor snum pin pullUp
      (some sen, { s with sensors := s.sensors ++ [sen] })
    else (none, s)

/-- `Sensor::remove`: unlink the record with id `n` (false if absent).  If the
cursor pointed at the removed record it is advanced to the removed record's
successor; a cursor past the removal point shifts down by one (the record it
references keeps its identity while its index drops). -/
def Sensor.remove (n : Int) (s : SensorState) : Bool × SensorState :=
  match Sensor.getIdx n s.sensors with
  | none => (false, s)
  | some j =>
    let sensors2 := s.sensors.eraseIdx j
    let cursor2 :=
      match s.cursor with
      | none => none
      | some i =>
        if i = j then (if j < sensors2.length then some j else none)
        else if j < i then some (i - 1) else some i
    (true, { sensors := sensors2, cursor := cursor2 })

/-- The cursor invariant: `readingSensor`, when non-null, references a record
currently in the sequence. -/
def cursorOk (s : SensorState) : Bool :=
  match s.cursor with
  | none => true
  | some i => i < s.sensors.length

/-- Iterate `Sensor.checkAll` `n` times, collecting all emitted change
events in order. -/
def scanN (digitalRead : Int → Bool) : Nat → SensorState → SensorState × List (Bool × Int)
  | 0, s => (s, [])
  | n + 1, s =>
    let r := Sensor.checkAll digitalRead s
    let r2 := scanN digitalRead n r.1
    (r2.1, r.2.toList ++ r2.2)

/-- Index of the record a `checkAll` call starting from state `s` scans
(the cursor, with a null cursor standing for the head). -/
def visitedIdx (s : SensorState) : Nat := s.cursor.getD 0

/-- Indices visited by `n` consecutive `checkAll` calls. -/
def scanTrace (digitalRead : Int → Bool) : Nat → SensorState → List Nat
  | 0, _ => []
  | n + 1, s => visitedIdx s :: scanTrace digitalRead n (Sensor.checkAll digitalRead s).1

/-! PCF8574 I2C GPIO expander driver. -/

/-- Device lifecycle state (`DEVSTATE_*`). -/
inductive DevState where
  | scanning
  | probing
  | normal
  | dormant
deriving DecidableEq, Repr

/-- Pin-configuration request kinds (`ConfigTypeEnum`); the driver only tests
against `CONFIGURE_INPUT`. -/
inductive ConfigTypeEnum where
  | CONFIGURE_INPUT
  | CONFIGURE_OUTPUT
  | CONFIGURE_SERVO
deriving DecidableEq, Repr

/-- Successful I2C transaction status. -/
def I2C_STATUS_OK : Nat := 0

/-- Bus traffic emitted by the driver: an asynchronous one-byte write of the
output latch, a combined write-then-read transaction (`I2CManager.read` with a
write buffer), or queueing the reusable request block (`isRead` tells whether
the block currently holds read or zero-length-write/probe parameters). -/
inductive BusAction where
  | write (addr : Nat) (value : Nat)
  | writeRead (addr : Nat) (value : Nat)
  | queueRequest (isRead : Bool)
deriving DecidableEq, Repr

/-- A PCF8574 device: identity, the output latch `_portOutputState`, the last
input sample `_portInputState`, lifecycle state, and tick bookkeeping.
`reqRead` mirrors whether `requestBlock` holds read parameters
(`setReadParams`) or probe/write parameters (`setWriteParams`). -/
structure PCF8574 where
  firstVpin : Int
  nPins : Nat
  I2CAddress : Nat
  portInputState : Nat
  portOutputState : Nat
  deviceState : DevState
  lastLoopEntry : Nat
  portTickTime : Nat
  reqRead : Bool
deriving DecidableEq, Repr

/-- The PCF8574 constructor: clamp the pin count to 8, zero both port state
bytes, and load the request block with zero-length write (probe) parameters.
`st`, `lastEntry` and `tick` are the base-class members (`_deviceState`,
`_lastLoopEntry`, `_portTickTime`) initialised outside this file's source. -/
def PCF8574.init (vpin : Int) (nPins : Nat) (I2CAddress : Nat)
    (st : DevState) (lastEntry tick : Nat) : PCF8574 :=
  { firstVpin := vpin
    nPins := min nPins 8
    I2CAddress := I2CAddress
    portInputState := 0x00
    portOutputState := 0x00
    deviceState := st
    lastLoopEntry := lastEntry
    portTickTime := tick
    reqRead := false }

/-- `PCF8574::_configure`: only an input configuration with exactly one
parameter requesting a pull-up is accepted; nothing is mutated. -/
def PCF8574.configure (dev : PCF8574) (configType : ConfigTypeEnum)
    (params : List Int) : Bool × PCF8574 :=
  if configType ≠ ConfigTypeEnum.CONFIGURE_INPUT then (false, dev)
  else
    match params with
    | [p] => if p ≠ 0 then (true, dev) else (false, dev)
    | _ => (false, dev)

/-- The byte mask `1 << (vpin - _firstVpin)` (a `uint8_t`, hence mod 256). -/
def pinMask (dev : PCF8574) (vpin : Int) : Nat :=
  2 ^ (vpin - dev.firstVpin).toNat % 256

/-- `PCF8574::_write`: set or clear the line's bit in the output latch and
write the whole latch byte to the device. -/
def PCF8574.write (dev : PCF8574) (vpin : Int) (value : Int) :
    PCF8574 × List BusAction :=
  let mask := pinMask dev vpin
  let out :=
    if value ≠ 0 then dev.portOutputState ||| mask
    else dev.portOutputState &&& (mask ^^^ 255)
  ({ dev with portOutputState := out }, [BusAction.write dev.I2CAddress out])

/-- `PCF8574::_read`: if the line's latch bit is 0, first force it to 1 and
perform a synchronous write-then-read of the port (oracle outcome `status`,
sampled byte `readByte`; a failed transaction leaves the sample all-ones);
then report the line's bit of `_portInputState`. -/
def PCF8574.read (dev : PCF8574) (vpin : Int) (status : Nat) (readByte : Nat) :
    Int × PCF8574 × List BusAction :=
  let mask := pinMask dev vpin
  if dev.portOutputState &&& mask = 0 then
    let out := dev.portOutputState ||| mask
    let inp := if status = I2C_STATUS_OK then readByte % 256 else 0xff
    ((if inp &&& mask ≠ 0 then 1 else 0),
     { dev with portOutputState := out, portInputState := inp },
     [BusAction.writeRead dev.I2CAddress out])
  else
    ((if dev.portInputState &&& mask ≠ 0 then 1 else 0), dev, [])

/-- 32-bit wrap-around subtraction, as `currentMicros - _lastLoopEntry`
computes on `unsigned long` values. -/
def usub32 (a b : Nat) : Nat := (a % 2 ^ 32 + 2 ^ 32 - b % 2 ^ 32) % 2 ^ 32

/-- Completion phase of `PCF8574::_loop` (the `switch (_deviceState)` run when
the request block is not busy): handle a finished scan or probe transaction
given its `status` and the byte left in `inputBuffer`. -/
def PCF8574.loopCompletion (dev : PCF8574) (status : Nat) (inputBuffer : Nat) :
    PCF8574 × List BusAction :=
  match dev.deviceState with
  | DevState.scanning =>
    if status = I2C_STATUS_OK then
      ({ dev with portInputState := inputBuffer % 256, deviceState := DevState.normal }, [])
    else
      ({ dev with portInputState := 0xff, deviceState := DevState.dormant }, [])
  | DevState.probing =>
    if status = I2C_STATUS_OK then
      ({ dev with reqRead := true, deviceState := DevState.normal },
       [BusAction.write dev.I2CAddress dev.portOutputState])
    else
      ({ dev with deviceState := DevState.dormant }, [])
  | _ => (dev, [])

/-- Tick phase of `PCF8574::_loop`: once per tick interval, start a new read
cycle when `Normal` or a probe when `Dormant`, and stamp `_lastLoopEntry`. -/
def PCF8574.loopTick (dev : PCF8574) (currentMicros : Nat) :
    PCF8574 × List BusAction :=
  if usub32 currentMicros dev.lastLoopEntry > dev.portTickTime then
    match dev.deviceState with
    | DevState.normal =>
      ({ dev with deviceState := DevState.scanning, lastLoopEntry := currentMicros },
       [BusAction.queueRequest dev.reqRead])
    | DevState.dormant =>
      ({ dev with reqRead := false, deviceState := DevState.probing,
                  lastLoopEntry := currentMicros },
       [BusAction.queueRequest false])
    | _ => ({ dev with lastLoopEntry := currentMicros }, [])
  else (dev, [])

/-- `PCF8574::_loop`: nothing happens while the transaction is busy; otherwise
run the completion phase and then the rate-limited initiation phase. -/
def PCF8574.loop (dev : PCF8574) (currentMicros : Nat) (busy : Bool)
    (status : Nat) (inputBuffer : Nat) : PCF8574 × List BusAction :=
  if busy then (dev, [])
  else
    let r1 := PCF8574.loopCompletion dev status inputBuffer
    let r2 := PCF8574.loopTick r1.1 currentMicros
    (r2.1, r1.2 ++ r2.2)

/-- Recogniser for transaction-initiating bus actions. -/
def BusAction.isQueue : BusAction → Bool
  | BusAction.queueRequest _ => true
  | _ => false

/-! Helper lemmas about the registry scanner. -/

/-- One `checkAll` call on a one-record registry scans that record and leaves
the cursor null (past the tail). -/
theorem checkAll_singleton (digitalRead : Int → Bool) (sen : Sensor) :
    Sensor.checkAll digitalRead ⟨[sen], none⟩ =
      (⟨[(Sensor.checkOne (digitalRead sen.data.pin) sen).1], none⟩,
       (Sensor.checkOne (digitalRead sen.data.pin) sen).2) := by
  simp [Sensor.checkAll]

/-- Agreeing sample: the debounce step resets the jitter counter and emits
nothing. -/
theorem checkOne_agree (raw : Bool) (sen : Sensor) (h : (!raw) = sen.active) :
    Sensor.checkOne raw sen = ({ sen with latchdelay := 0 }, none) := by
  simp [Sensor.checkOne, h]

/-- Disagreeing sample below saturation: the counter increments, nothing is
emitted. -/
theorem checkOne_disagree_low (raw : Bool) (sen : Sensor) (h : (!raw) ≠ sen.active)
    (hd : sen.latchdelay < 127) :
    Sensor.checkOne raw sen = ({ sen with latchdelay := sen.latchdelay + 1 }, none) := by
  simp [Sensor.checkOne, h, hd]

/-- Disagreeing sample at saturation: the change is committed and one event is
emitted. -/
theorem checkOne_commit (raw : Bool) (sen : Sensor) (h : (!raw) ≠ sen.active)
    (hd : ¬ sen.latchdelay < 127) :
    Sensor.checkOne raw sen =
      ({ sen with active := !raw, latchdelay := 0 }, some (!raw, sen.data.snum)) := by
  simp [Sensor.checkOne, h, hd]

/-- Unfolding lemma for `scanN`. -/
theorem scanN_succ (digitalRead : Int → Bool) (n : Nat) (s : SensorState) :
    scanN digitalRead (n + 1) s =
      ((scanN digitalRead n (Sensor.checkAll digitalRead s).1).1,
       (Sensor.checkAll digitalRead s).2.toList ++
         (scanN digitalRead n (Sensor.checkAll digitalRead s).1).2) := rfl

/-- `k` disagreeing scans that stay below the saturation threshold only grow
the jitter counter by `k`; no event is emitted. -/
theorem scanN_disagree (digitalRead : Int → Bool) (k : Nat) :
    ∀ sen : Sensor, digitalRead sen.data.pin = sen.active →
      sen.latchdelay + k ≤ 127 →
      scanN digitalRead k ⟨[sen], none⟩ =
        (⟨[{ sen with latchdelay := sen.latchdelay + k }], none⟩, []) := by
  induction k with
  | zero => intro sen _ _; simp [scanN]
  | succ n ih =>
    intro sen h hk
    have hne : (!(digitalRead sen.data.pin)) ≠ sen.active := by
      rw [h]; cases sen.active <;> simp
    have hlt : sen.latchdelay < 127 := by omega
    have hstep := checkAll_singleton digitalRead sen
    rw [checkOne_disagree_low _ _ hne hlt] at hstep
    rw [scanN_succ, hstep]
    have hrec := ih { sen with latchdelay := sen.latchdelay + 1 } h
      (by show sen.latchdelay + 1 + n ≤ 127; omega)
    dsimp only
    rw [hrec]
    have hadd : sen.latchdelay + 1 + n = sen.latchdelay + (n + 1) := by omega
    simp [hadd]

/-- Splitting a scan run. -/
theorem scanN_add (digitalRead : Int → Bool) (a b : Nat) :
    ∀ s : SensorState,
      scanN digitalRead (a + b) s =
        ((scanN digitalRead b (scanN digitalRead a s).1).1,
         (scanN digitalRead a s).2 ++
           (scanN digitalRead b (scanN digitalRead a s).1).2) := by
  induction a with
  | zero => intro s; simp [scanN]
  | succ n ih =>
    intro s
    have h1 : n + 1 + b = n + b + 1 := by omega
    rw [h1, scanN_succ, scanN_succ, ih]
    simp

/-- C1: for the record scanned by `Sensor::checkAll`: an agreeing raw sample
(whatever the jitter counter holds) resets the counter to 0 and emits no
event; starting from a steady record a single-tick glitch — one disagreeing
scan followed by an agreeing one — emits no event on either scan; and 127
consecutive disagreeing scans followed by one more flip `active`, reset the
counter to 0, and emit exactly one event carrying the new state and the
sensor id. -/
theorem claim1_checkAll_debounce (sen : Sensor) (readA readD : Int → Bool)
    (hA : readA sen.data.pin = !sen.active)
    (hD : readD sen.data.pin = sen.active)
    (h0 : sen.latchdelay = 0) :
    (∀ d : Nat,
      Sensor.checkAll readA ⟨[{ sen with latchdelay := d }], none⟩ =
        (⟨[{ sen with latchdelay := 0 }], none⟩, none)) ∧
    ((Sensor.checkAll readD ⟨[sen], none⟩).2 = none ∧
      (Sensor.checkAll readA (Sensor.checkAll readD ⟨[sen], none⟩).1).2 = none) ∧
    scanN readD 128 ⟨[sen], none⟩ =
      (⟨[{ sen with active := !sen.active, latchdelay := 0 }], none⟩,
       [(!sen.active, sen.data.snum)]) := by
  have hagree : ∀ d : Nat, (!(readA ({ sen with latchdelay := d } : Sensor).data.pin))
      = ({ sen with latchdelay := d } : Sensor).active := by
    intro d; show (!(readA sen.data.pin)) = sen.active
    rw [hA, Bool.not_not]
  have hne : (!(readD sen.data.pin)) ≠ sen.active := by
    rw [hD]; cases sen.active <;> simp
  refine ⟨?_, ⟨?_, ?_⟩, ?_⟩
  · intro d
    rw [checkAll_singleton, checkOne_agree _ _ (hagree d)]
  · have hstepD := checkAll_singleton readD sen
    rw [checkOne_disagree_low _ _ hne (by omega)] at hstepD
    rw [hstepD]
  · have hstepD := checkAll_singleton readD sen
    rw [checkOne_disagree_low _ _ hne (by omega)] at hstepD
    rw [hstepD]
    show (Sensor.checkAll readA
      ⟨[{ sen with latchdelay := sen.latchdelay + 1 }], none⟩).2 = none
    rw [checkAll_singleton, checkOne_agree _ _ (hagree _)]
  · have h127 : (128 : Nat) = 127 + 1 := by omega
    have hmid := scanN_disagree readD 127 sen hD (by omega)
    have hne127 : (!(readD ({ sen with latchdelay := sen.latchdelay + 127 } : Sensor).data.pin))
        ≠ ({ sen with latchdelay := sen.latchdelay + 127 } : Sensor).active := hne
    have hfin : scanN readD 1
        (⟨[{ sen with latchdelay := sen.latchdelay + 127 }], none⟩ : SensorState) =
        (⟨[{ sen with active := !sen.active, latchdelay := 0 }], none⟩,
         [(!sen.active, sen.data.snum)]) := by
      have hsat : ¬ ({ sen with latchdelay := sen.latchdelay + 127 } : Sensor).latchdelay
          < 127 := by
        show ¬ sen.latchdelay + 127 < 127
        omega
      rw [scanN_succ, checkAll_singleton, checkOne_commit _ _ hne127 hsat]
      simp [scanN, hD]
    rw [h127, scanN_add, hmid]
    dsimp only
    rw [hfin]
    simp

/-- Witness for C1: a concrete sensor held low for 128 scans flips to active
and emits exactly one rising event. -/
theorem claim1_checkAll_debounce_witness :
    ((fun _ : Int => true) ((⟨⟨5, 3, 1⟩, false, 0⟩ : Sensor).data.pin)
        = !(⟨⟨5, 3, 1⟩, false, 0⟩ : Sensor).active) ∧
    ((fun _ : Int => false) ((⟨⟨5, 3, 1⟩, false, 0⟩ : Sensor).data.pin)
        = (⟨⟨5, 3, 1⟩, false, 0⟩ : Sensor).active) ∧
    (⟨⟨5, 3, 1⟩, false, 0⟩ : Sensor).latchdelay = 0 ∧
    scanN (fun _ => false) 128 ⟨[⟨⟨5, 3, 1⟩, false, 0⟩], none⟩ =
      (⟨[⟨⟨5, 3, 1⟩, true, 0⟩], none⟩, [(true, 5)]) :=
  ⟨rfl, rfl, rfl, by
    have h := (claim1_checkAll_debounce ⟨⟨5, 3, 1⟩, false, 0⟩
      (fun _ => true) (fun _ => false) rfl rfl rfl).2.2
    simpa using h⟩

/-! Helper lemmas about lookup by id and the cursor invariant. -/

/-- An index found by the id lookup is in range. -/
theorem getIdx_lt (n : Int) : ∀ l : List Sensor, ∀ j : Nat,
    Sensor.getIdx n l = some j → j < l.length := by
  intro l
  induction l with
  | nil => intro j h; simp [Sensor.getIdx] at h
  | cons a rest ih =>
    intro j h
    by_cases ha : a.data.snum = n
    · simp [Sensor.getIdx, ha] at h
      simp only [List.length_cons]
      omega
    · simp [Sensor.getIdx, ha, Option.map_eq_some'] at h
      obtain ⟨j2, hj2, hj⟩ := h
      have := ih j2 hj2
      simp only [List.length_cons]
      omega

/-- After erasing index `j`, position `j` holds the old successor. -/
theorem get?_eraseIdx_self (l : List Sensor) (j : Nat) :
    (l.eraseIdx j).get? j = l.get? (j + 1) := by
  simp [List.getElem?_eraseIdx_of_ge l j j (Nat.le_refl j)]

/-- Updating the found record in place keeps its position as the first match. -/
theorem getIdx_set_self (n : Int) (x : Sensor) (hx : x.data.snum = n) :
    ∀ l : List Sensor, ∀ j : Nat,
      Sensor.getIdx n l = some j → Sensor.getIdx n (l.set j x) = some j := by
  intro l
  induction l with
  | nil => intro j h; simp [Sensor.getIdx] at h
  | cons a rest ih =>
    intro j h
    by_cases ha : a.data.snum = n
    · simp [Sensor.getIdx, ha] at h
      subst h
      simp [Sensor.getIdx, hx]
    · simp [Sensor.getIdx, ha, Option.map_eq_some'] at h
      obtain ⟨j2, hj2, hj⟩ := h
      subst hj
      simp [List.set, Sensor.getIdx, ha, ih j2 hj2]

/-- Appending a matching record to an id-free list places the first match at
the old tail position. -/
theorem getIdx_append (n : Int) (x : Sensor) (hx : x.data.snum = n) :
    ∀ l : List Sensor, Sensor.getIdx n l = none →
      Sensor.getIdx n (l ++ [x]) = some l.length := by
  intro l
  induction l with
  | nil => intro _; simp [Sensor.getIdx, hx]
  | cons a rest ih =>
    intro h
    by_cases ha : a.data.snum = n
    · simp [Sensor.getIdx, ha] at h
    · simp [Sensor.getIdx, ha] at h
      simp [Sensor.getIdx, ha, ih h]

/-- `Sensor::remove` preserves the cursor invariant. -/
theorem cursorOk_remove (n : Int) (s : SensorState) (h : cursorOk s = true) :
    cursorOk (Sensor.remove n s).2 = true := by
  cases hgi : Sensor.getIdx n s.sensors with
  | none => simpa [Sensor.remove, hgi] using h
  | some j =>
    have hjlen := getIdx_lt n s.sensors j hgi
    have hlen2 : (s.sensors.eraseIdx j).length = s.sensors.length - 1 :=
      List.length_eraseIdx_of_lt hjlen
    cases hc : s.cursor with
    | none => simp [Sensor.remove, hgi, hc, cursorOk]
    | some i =>
      have hi : i < s.sensors.length := by simpa [cursorOk, hc] using h
      by_cases hij : i = j
      · subst hij
        by_cases hjl : i < (s.sensors.eraseIdx i).length
        · simp [Sensor.remove, hgi, hc, cursorOk, hjl]
        · simp [Sensor.remove, hgi, hc, cursorOk, hjl]
      · by_cases hji : j < i
        · simp [Sensor.remove, hgi, hc, cursorOk, hij, hji, hlen2]
          omega
        · simp [Sensor.remove, hgi, hc, cursorOk, hij, hji, hlen2]
          omega

/-- `Sensor::create` preserves the cursor invariant. -/
theorem cursorOk_create (allocOk : Bool) (snum pin pullUp : Int) (s : SensorState)
    (h : cursorOk s = true) :
    cursorOk (Sensor.create allocOk snum pin pullUp s).2 = true := by
  cases hc : s.cursor with
  | none =>
    cases hgi : Sensor.getIdx snum s.sensors with
    | none => by_cases hok : allocOk <;> simp [Sensor.create, hgi, hc, cursorOk, hok]
    | some j => simp [Sensor.create, hgi, hc, cursorOk]
  | some i =>
    have hi : i < s.sensors.length := by simpa [cursorOk, hc] using h
    cases hgi : Sensor.getIdx snum s.sensors with
    | none =>
      by_cases hok : allocOk
      · simp [Sensor.create, hgi, hc, cursorOk, hok]
        omega
      · simpa [Sensor.create, hgi, hc, cursorOk, hok] using hi
    | some j => simpa [Sensor.create, hgi, hc, cursorOk] using hi

/-- `Sensor::checkAll` preserves the cursor invariant. -/
theorem cursorOk_checkAll (digitalRead : Int → Bool) (s : SensorState)
    (h : cursorOk s = true) :
    cursorOk (Sensor.checkAll digitalRead s).1 = true := by
  obtain ⟨l, c⟩ := s
  cases l with
  | nil => simpa [Sensor.checkAll] using h
  | cons a rest =>
    cases hg : (a :: rest)[(c : Option Nat).getD 0]? with
    | none => simpa [Sensor.checkAll, hg] using h
    | some sen =>
      by_cases hlt : ((c : Option Nat).getD 0) < rest.length
      · simp [Sensor.checkAll, hg, cursorOk, hlt]
      · simp [Sensor.checkAll, hg, cursorOk, hlt]

/-- C3: `Sensor::remove` on a present id unlinks that record; a cursor that
referenced the removed record is advanced to the record that followed it (or
null if it was the tail); removing an absent id returns false and leaves the
registry unchanged; and the cursor invariant — a non-null cursor references a
record currently in the sequence — is preserved by remove, create (upsert) and
the scanner. -/
theorem claim3_remove_cursor_safety (n : Int) (s : SensorState) :
    (Sensor.getIdx n s.sensors = none → Sensor.remove n s = (false, s)) ∧
    (∀ j : Nat, Sensor.getIdx n s.sensors = some j →
      (Sensor.remove n s).1 = true ∧
      (Sensor.remove n s).2.sensors = s.sensors.eraseIdx j ∧
      (s.cursor = some j →
        (j + 1 < s.sensors.length →
          (Sensor.remove n s).2.cursor = some j ∧
          (Sensor.remove n s).2.sensors.get? j = s.sensors.get? (j + 1)) ∧
        (j + 1 = s.sensors.length → (Sensor.remove n s).2.cursor = none))) ∧
    (cursorOk s = true →
      cursorOk (Sensor.remove n s).2 = true ∧
      (∀ (allocOk : Bool) (snum pin pullUp : Int),
        cursorOk (Sensor.create allocOk snum pin pullUp s).2 = true) ∧
      (∀ digitalRead : Int → Bool,
        cursorOk (Sensor.checkAll digitalRead s).1 = true)) := by
  refine ⟨?_, ?_, ?_⟩
  · intro h
    simp [Sensor.remove, h]
  · intro j hj
    have hjlen := getIdx_lt n s.sensors j hj
    have hlen2 : (s.sensors.eraseIdx j).length = s.sensors.length - 1 :=
      List.length_eraseIdx_of_lt hjlen
    refine ⟨by simp [Sensor.remove, hj], by simp [Sensor.remove, hj], ?_⟩
    intro hc
    constructor
    · intro hlt
      have hjl : j < (s.sensors.eraseIdx j).length := by omega
      refine ⟨by simp [Sensor.remove, hj, hc, hjl], ?_⟩
      have := get?_eraseIdx_self s.sensors j
      simpa [Sensor.remove, hj] using this
    · intro hlast
      have hjl : ¬ j < (s.sensors.eraseIdx j).length := by omega
      simp [Sensor.remove, hj, hc, hjl]
  · intro h
    exact ⟨cursorOk_remove n s h,
      fun allocOk snum pin pullUp => cursorOk_create allocOk snum pin pullUp s h,
      fun digitalRead => cursorOk_checkAll digitalRead s h⟩

/-- Witness for C3: removing id 1 from a two-record registry whose cursor sits
on the removed record advances the cursor to the old successor and keeps the
invariant. -/
theorem claim3_remove_cursor_safety_witness :
    Sensor.getIdx 1 [⟨⟨1, 10, 1⟩, false, 0⟩, ⟨⟨2, 11, 1⟩, false, 0⟩] = some 0 ∧
    cursorOk ⟨[⟨⟨1, 10, 1⟩, false, 0⟩, ⟨⟨2, 11, 1⟩, false, 0⟩], some 0⟩ = true ∧
    (Sensor.remove 1 ⟨[⟨⟨1, 10, 1⟩, false, 0⟩, ⟨⟨2, 11, 1⟩, false, 0⟩], some 0⟩).1
      = true ∧
    (Sensor.remove 1 ⟨[⟨⟨1, 10, 1⟩, false, 0⟩, ⟨⟨2, 11, 1⟩, false, 0⟩], some 0⟩).2.cursor
      = some 0 ∧
    cursorOk
      (Sensor.remove 1 ⟨[⟨⟨1, 10, 1⟩, false, 0⟩, ⟨⟨2, 11, 1⟩, false, 0⟩], some 0⟩).2
      = true := by
  refine ⟨by decide, by decide, ?_, ?_, ?_⟩
  · exact ((claim3_remove_cursor_safety 1
      ⟨[⟨⟨1, 10, 1⟩, false, 0⟩, ⟨⟨2, 11, 1⟩, false, 0⟩], some 0⟩).2.1 0 (by decide)).1
  · exact (((claim3_remove_cursor_safety 1
      ⟨[⟨⟨1, 10, 1⟩, false, 0⟩, ⟨⟨2, 11, 1⟩, false, 0⟩], some 0⟩).2.1 0
        (by decide)).2.2 rfl).1 (by decide) |>.1
  · exact ((claim3_remove_cursor_safety 1
      ⟨[⟨⟨1, 10, 1⟩, false, 0⟩, ⟨⟨2, 11, 1⟩, false, 0⟩], some 0⟩).2.2 (by decide)).1

/-- One `checkAll` call on a state whose cursor designates a valid index `i`
scans the record at `i`, rewrites only that slot, and advances the cursor. -/
theorem checkAll_step (digitalRead : Int → Bool) (t : SensorState) (i : Nat)
    (hi : i < t.sensors.length)
    (hcur : t.cursor = some i ∨ (t.cursor = none ∧ i = 0)) :
    ∃ sen : Sensor, t.sensors.get? i = some sen ∧
      Sensor.checkAll digitalRead t =
        ({ sensors := t.sensors.set i (Sensor.checkOne (digitalRead sen.data.pin) sen).1,
           cursor := if i + 1 < t.sensors.length then some (i + 1) else none },
         (Sensor.checkOne (digitalRead sen.data.pin) sen).2) := by
  obtain ⟨l, c⟩ := t
  cases l with
  | nil => simp at hi
  | cons a rest =>
    have hc : (c : Option Nat).getD 0 = i := by
      rcases hcur with h | ⟨h, h0⟩ <;> simp_all
    have hsen : (a :: rest)[i]? = some (a :: rest)[i] :=
      List.getElem?_eq_getElem hi
    refine ⟨(a :: rest)[i], by simp [hsen], ?_⟩
    simp [Sensor.checkAll, hc, hsen]

/-- Starting from a valid cursor `k`, the next `m` scans (with `k + m = N`)
visit exactly the indices `k, k+1, …` in order. -/
theorem scanTrace_range' (digitalRead : Int → Bool) (N : Nat) :
    ∀ m k : Nat, ∀ t : SensorState, t.sensors.length = N → k < N → k + m = N →
      t.cursor = some k →
      scanTrace digitalRead m t = List.range' k m := by
  intro m
  induction m with
  | zero => intro k t _ _ _ _; simp [scanTrace]
  | succ n ih =>
    intro k t hlen hk hkm hc
    obtain ⟨sen, hget, hstep⟩ := checkAll_step digitalRead t k (by omega) (Or.inl hc)
    have hvis : visitedIdx t = k := by simp [visitedIdx, hc]
    have hlen2 :
        (t.sensors.set k (Sensor.checkOne (digitalRead sen.data.pin) sen).1).length
          = N := by simp [hlen]
    rw [scanTrace, hvis, hstep, List.range'_succ]
    dsimp only
    congr 1
    by_cases hlt : k + 1 < t.sensors.length
    · rw [if_pos hlt]
      exact ih (k + 1) _ hlen2 (by omega) (by omega) rfl
    · have hn : n = 0 := by
        rw [hlen] at hlt
        omega
      subst hn
      simp [scanTrace, List.range']

/-- C4: with a registry of size `N ≥ 1` and no structural mutation, each
`checkAll` call processes exactly the one record under the cursor (length and
all other slots are untouched) and advances the cursor; over `N` consecutive
calls starting from the head, the visited indices are exactly
`0, …, N-1` — every record exactly once. -/
theorem claim4_round_robin (digitalRead : Int → Bool) (s : SensorState) (N : Nat)
    (hN : s.sensors.length = N) (h1 : 1 ≤ N) (hc : s.cursor = none) :
    (∀ t : SensorState, ∀ i : Nat, t.sensors.length = N → t.cursor = some i →
      i < N →
      visitedIdx t = i ∧
      (Sensor.checkAll digitalRead t).1.sensors.length = N ∧
      (Sensor.checkAll digitalRead t).1.cursor
        = (if i + 1 < N then some (i + 1) else none) ∧
      (∀ m : Nat, m ≠ i →
        (Sensor.checkAll digitalRead t).1.sensors.get? m = t.sensors.get? m)) ∧
    scanTrace digitalRead N s = List.range N ∧
    (∀ k : Nat, k < N → (scanTrace digitalRead N s).count k = 1) := by
  have htrace : scanTrace digitalRead N s = List.range N := by
    obtain ⟨n, hn⟩ : ∃ n, N = n + 1 := ⟨N - 1, by omega⟩
    subst hn
    obtain ⟨sen, hget, hstep⟩ :=
      checkAll_step digitalRead s 0 (by omega) (Or.inr ⟨hc, rfl⟩)
    have hvis : visitedIdx s = 0 := by simp [visitedIdx, hc]
    rw [scanTrace, hvis, hstep, List.range_eq_range', List.range'_succ]
    dsimp only
    congr 1
    by_cases hlt : 0 + 1 < s.sensors.length
    · rw [if_pos hlt]
      exact scanTrace_range' digitalRead (n + 1) n (0 + 1) _ (by simp [hN])
        (by rw [hN] at hlt; omega) (by omega) rfl
    · have hn0 : n = 0 := by
        rw [hN] at hlt
        omega
      subst hn0
      simp [scanTrace, List.range']
  refine ⟨?_, htrace, ?_⟩
  · intro t i hlen hcur hi
    obtain ⟨sen, hget, hstep⟩ :=
      checkAll_step digitalRead t i (by omega) (Or.inl hcur)
    refine ⟨by simp [visitedIdx, hcur], ?_, ?_, ?_⟩
    · rw [hstep]
      dsimp only
      simp [hlen]
    · rw [hstep]
      dsimp only
      rw [hlen]
    · intro m hm
      rw [hstep]
      dsimp only
      simp [List.getElem?_set_ne (Ne.symm hm)]
  · intro k hk
    rw [htrace]
    exact List.count_eq_one_of_mem (List.nodup_range N) (List.mem_range.mpr hk)

/-- Witness for C4: two consecutive scans of a two-record registry starting at
the head visit indices 0 then 1. -/
theorem claim4_round_robin_witness :
    ([⟨⟨1, 10, 1⟩, false, 0⟩, ⟨⟨2, 11, 1⟩, false, 0⟩] : List Sensor).length = 2 ∧
    scanTrace (fun _ => true) 2
      ⟨[⟨⟨1, 10, 1⟩, false, 0⟩, ⟨⟨2, 11, 1⟩, false, 0⟩], none⟩ = List.range 2 :=
  ⟨rfl,
    (claim4_round_robin (fun _ => true)
      ⟨[⟨⟨1, 10, 1⟩, false, 0⟩, ⟨⟨2, 11, 1⟩, false, 0⟩], none⟩ 2
      rfl (by omega) rfl).2.1⟩

/-- C8: `Sensor::create` on an existing id rewrites that record in place —
same position, same registry size, no other slot touched; on an absent id it
appends at the tail; it returns null exactly when the id is absent and
allocation fails; and a second upsert of the same id (after any successful
one) keeps the registry size and the record's position unchanged. -/
theorem claim8_upsert (allocOk : Bool) (snum pin pullUp : Int) (s : SensorState) :
    (∀ j : Nat, Sensor.getIdx snum s.sensors = some j →
      (Sensor.create allocOk snum pin pullUp s).2.sensors.length
        = s.sensors.length ∧
      Sensor.getIdx snum (Sensor.create allocOk snum pin pullUp s).2.sensors
        = some j ∧
      (Sensor.create allocOk snum pin pullUp s).2.sensors.get? j
        = some (newSensor snum pin pullUp) ∧
      (∀ m : Nat, m ≠ j →
        (Sensor.create allocOk snum pin pullUp s).2.sensors.get? m
          = s.sensors.get? m)) ∧
    (Sensor.getIdx snum s.sensors = none → allocOk = true →
      (Sensor.create allocOk snum pin pullUp s).2.sensors
        = s.sensors ++ [newSensor snum pin pullUp]) ∧
    ((Sensor.create allocOk snum pin pullUp s).1 = none ↔
      (allocOk = false ∧ Sensor.getIdx snum s.sensors = none)) ∧
    (∀ ok2 : Bool, (Sensor.create allocOk snum pin pullUp s).1.isSome = true →
      (Sensor.create ok2 snum pin pullUp
          (Sensor.create allocOk snum pin pullUp s).2).2.sensors.length
        = (Sensor.create allocOk snum pin pullUp s).2.sensors.length ∧
      Sensor.getIdx snum (Sensor.create ok2 snum pin pullUp
          (Sensor.create allocOk snum pin pullUp s).2).2.sensors
        = Sensor.getIdx snum (Sensor.create allocOk snum pin pullUp s).2.sensors) := by
  have hnew : (newSensor snum pin pullUp).data.snum = snum := rfl
  refine ⟨?_, ?_, ?_, ?_⟩
  · intro j hj
    have hjlen := getIdx_lt snum s.sensors j hj
    refine ⟨by simp [Sensor.create, hj], ?_, ?_, ?_⟩
    · simp only [Sensor.create, hj]
      exact getIdx_set_self snum _ hnew s.sensors j hj
    · simp [Sensor.create, hj, List.getElem?_set_self', hjlen,
        List.getElem?_eq_getElem]
    · intro m hm
      simp [Sensor.create, hj, List.getElem?_set_ne (Ne.symm hm)]
  · intro hgi hok
    simp [Sensor.create, hgi, hok]
  · constructor
    · intro h
      cases hgi : Sensor.getIdx snum s.sensors with
      | some j => simp [Sensor.create, hgi] at h
      | none =>
        by_cases hok : allocOk
        · simp [Sensor.create, hgi, hok] at h
        · exact ⟨by simpa using hok, rfl⟩
    · rintro ⟨hok, hgi⟩
      simp [Sensor.create, hgi, hok]
  · intro ok2 hsome
    cases hgi : Sensor.getIdx snum s.sensors with
    | some j =>
      have hfull : (Sensor.create allocOk snum pin pullUp s).2
          = { s with sensors := s.sensors.set j (newSensor snum pin pullUp) } := by
        simp [Sensor.create, hgi]
      have hpos : Sensor.getIdx snum
          (s.sensors.set j (newSensor snum pin pullUp)) = some j :=
        getIdx_set_self snum _ hnew s.sensors j hgi
      rw [hfull]
      constructor
      · simp [Sensor.create, hpos]
      · simp only [Sensor.create, hpos]
        exact getIdx_set_self snum _ hnew _ j hpos
    | none =>
      by_cases hok : allocOk
      · have hfull : (Sensor.create allocOk snum pin pullUp s).2
            = { s with sensors := s.sensors ++ [newSensor snum pin pullUp] } := by
          simp [Sensor.create, hgi, hok]
        have hpos : Sensor.getIdx snum (s.sensors ++ [newSensor snum pin pullUp])
            = some s.sensors.length :=
          getIdx_append snum _ hnew s.sensors hgi
        rw [hfull]
        constructor
        · simp [Sensor.create, hpos]
        · simp only [Sensor.create, hpos]
          exact getIdx_set_self snum _ hnew _ _ hpos
      · simp [Sensor.create, hgi, hok] at hsome

/-- Witness for C8: upserting id 7 into an empty registry appends it; a second
identical upsert leaves size 1 and position 0 unchanged. -/
theorem claim8_upsert_witness :
    (Sensor.create true 7 4 1 ⟨[], none⟩).2.sensors = [newSensor 7 4 1] ∧
    (Sensor.create true 7 4 1 ⟨[], none⟩).1.isSome = true ∧
    (Sensor.create true 7 4 1 (Sensor.create true 7 4 1 ⟨[], none⟩).2).2.sensors.length
      = (Sensor.create true 7 4 1 ⟨[], none⟩).2.sensors.length := by
  refine ⟨?_, by decide, ?_⟩
  · exact (claim8_upsert true 7 4 1 ⟨[], none⟩).2.1 rfl rfl
  · exact ((claim8_upsert true 7 4 1 ⟨[], none⟩).2.2.2 true (by decide)).1

/-- C10: whenever `Sensor::create` succeeds — updating an existing id or
appending a new one — the returned record has its debounced state reset:
`active = false` and `latchdelay = 0`; the record is stored in the resulting
registry, so any in-flight debounce on that id is discarded. -/
theorem claim10_upsert_resets (allocOk : Bool) (snum pin pullUp : Int)
    (s : SensorState) (sen : Sensor)
    (h : (Sensor.create allocOk snum pin pullUp s).1 = some sen) :
    sen.active = false ∧ sen.latchdelay = 0 ∧
    ∃ j : Nat,
      (Sensor.create allocOk snum pin pullUp s).2.sensors.get? j = some sen := by
  cases hgi : Sensor.getIdx snum s.sensors with
  | some j =>
    have hjlen := getIdx_lt snum s.sensors j hgi
    have hsen : sen = newSensor snum pin pullUp := by
      simp [Sensor.create, hgi] at h
      exact h.symm
    refine ⟨by rw [hsen]; rfl, by rw [hsen]; rfl, ⟨j, ?_⟩⟩
    simp [Sensor.create, hgi, hsen, List.getElem?_set_self', hjlen,
      List.getElem?_eq_getElem]
  | none =>
    by_cases hok : allocOk
    · have hsen : sen = newSensor snum pin pullUp := by
        simp [Sensor.create, hgi, hok] at h
        exact h.symm
      refine ⟨by rw [hsen]; rfl, by rw [hsen]; rfl, ⟨s.sensors.length, ?_⟩⟩
      simp [Sensor.create, hgi, hok, hsen]
    · simp [Sensor.create, hgi, hok] at h

/-- Witness for C10: upserting id 7 over a registry whose record for id 7 is
mid-debounce (`active = true`, `latchdelay = 42`) resets both fields. -/
theorem claim10_upsert_resets_witness :
    (Sensor.create true 7 4 1 ⟨[⟨⟨7, 9, 0⟩, true, 42⟩], none⟩).1
      = some (newSensor 7 4 1) ∧
    (newSensor 7 4 1).active = false ∧ (newSensor 7 4 1).latchdelay = 0 ∧
    ∃ j : Nat,
      (Sensor.create true 7 4 1 ⟨[⟨⟨7, 9, 0⟩, true, 42⟩], none⟩).2.sensors.get? j
        = some (newSensor 7 4 1) :=
  ⟨rfl, claim10_upsert_resets true 7 4 1 ⟨[⟨⟨7, 9, 0⟩, true, 42⟩], none⟩
    (newSensor 7 4 1) rfl⟩

/-! Helper lemmas about byte masks. -/

/-- A byte masked with a single-bit mask is nonzero exactly when that bit is
set. -/
theorem and_two_pow_ne_zero (x i : Nat) : x &&& 2 ^ i ≠ 0 ↔ x.testBit i := by
  rw [Nat.and_two_pow]
  cases h : x.testBit i <;> simp [h, Nat.pos_iff_ne_zero, Nat.pos_pow_of_pos]

/-- For a pin below the byte width, the `uint8_t` mask `1 << pin` is exactly
`2 ^ pin`. -/
theorem pinMask_eq (dev : PCF8574) (vpin : Int)
    (hp : (vpin - dev.firstVpin).toNat < 8) :
    pinMask dev vpin = 2 ^ (vpin - dev.firstVpin).toNat := by
  have h : 2 ^ (vpin - dev.firstVpin).toNat < 256 := by
    calc 2 ^ (vpin - dev.firstVpin).toNat
        < 2 ^ 8 := Nat.pow_lt_pow_right (by omega) hp
      _ = 256 := rfl
  exact Nat.mod_eq_of_lt h

/-- C7: a `PCF8574::_configure` request succeeds exactly when it asks for
input mode with a single parameter whose value requests a pull-up; every other
request (input without pull-up included) is rejected, and the device state is
never mutated. -/
theorem claim7_configure (dev : PCF8574) (configType : ConfigTypeEnum)
    (params : List Int) :
    ((PCF8574.configure dev configType params).1 = true ↔
      (configType = ConfigTypeEnum.CONFIGURE_INPUT ∧
        ∃ p : Int, params = [p] ∧ p ≠ 0)) ∧
    (PCF8574.configure dev configType params).2 = dev := by
  by_cases hct : configType = ConfigTypeEnum.CONFIGURE_INPUT
  · subst hct
    cases params with
    | nil => simp [PCF8574.configure]
    | cons p tail =>
      cases tail with
      | nil => by_cases hp : p = 0 <;> simp [PCF8574.configure, hp]
      | cons q rest => simp [PCF8574.configure]
  · simp [PCF8574.configure, hct]

/-- Witness for C7: on a freshly constructed device, input-with-pull-up on one
parameter is accepted and the device is returned unchanged. -/
theorem claim7_configure_witness :
    (PCF8574.configure (PCF8574.init 100 8 32 DevState.dormant 0 1000)
        ConfigTypeEnum.CONFIGURE_INPUT [1]).1 = true ∧
    (PCF8574.configure (PCF8574.init 100 8 32 DevState.dormant 0 1000)
        ConfigTypeEnum.CONFIGURE_INPUT [0]).2
      = PCF8574.init 100 8 32 DevState.dormant 0 1000 :=
  ⟨(claim7_configure (PCF8574.init 100 8 32 DevState.dormant 0 1000)
      ConfigTypeEnum.CONFIGURE_INPUT [1]).1.mpr ⟨rfl, 1, rfl, by decide⟩,
   (claim7_configure (PCF8574.init 100 8 32 DevState.dormant 0 1000)
      ConfigTypeEnum.CONFIGURE_INPUT [0]).2⟩

/-- C9: `PCF8574::_read` of a line whose latch bit is already 1 issues no bus
traffic and returns the cached input-sample bit with the device unchanged; a
line whose latch bit is 0 first has that bit forced to 1 in the latch, and the
latch byte is written to the device by the same combined transaction that
samples the input. -/
theorem claim9_read_predrive (dev : PCF8574) (vpin : Int) (status readByte : Nat)
    (hp : (vpin - dev.firstVpin).toNat < 8) :
    (dev.portOutputState &&& pinMask dev vpin ≠ 0 →
      PCF8574.read dev vpin status readByte =
        ((if dev.portInputState &&& pinMask dev vpin ≠ 0 then 1 else 0),
         dev, [])) ∧
    (dev.portOutputState &&& pinMask dev vpin = 0 →
      (PCF8574.read dev vpin status readByte).2.2 =
        [BusAction.writeRead dev.I2CAddress
          (dev.portOutputState ||| pinMask dev vpin)] ∧
      (PCF8574.read dev vpin status readByte).2.1.portOutputState
        = dev.portOutputState ||| pinMask dev vpin ∧
      (PCF8574.read dev vpin status readByte).2.1.portOutputState
          &&& pinMask dev vpin ≠ 0) := by
  constructor
  · intro h
    simp [PCF8574.read, h]
  · intro h
    refine ⟨by simp [PCF8574.read, h], by simp [PCF8574.read, h], ?_⟩
    have hout : (PCF8574.read dev vpin status readByte).2.1.portOutputState
        = dev.portOutputState ||| pinMask dev vpin := by
      simp [PCF8574.read, h]
    rw [hout, pinMask_eq dev vpin hp, and_two_pow_ne_zero]
    simp [Nat.testBit_two_pow_self]

/-- Witness for C9: on a freshly constructed device (latch zero) a read of the
first pin issues exactly one combined write-and-read transaction carrying the
released latch byte. -/
theorem claim9_read_predrive_witness :
    ((100 : Int) - (PCF8574.init 100 8 32 DevState.normal 0 1000).firstVpin).toNat
      < 8 ∧
    (PCF8574.init 100 8 32 DevState.normal 0 1000).portOutputState
        &&& pinMask (PCF8574.init 100 8 32 DevState.normal 0 1000) 100 = 0 ∧
    (PCF8574.read (PCF8574.init 100 8 32 DevState.normal 0 1000) 100 0 171).2.2
      = [BusAction.writeRead 32 1] := by
  refine ⟨by decide, by decide, ?_⟩
  have h := ((claim9_read_predrive (PCF8574.init 100 8 32 DevState.normal 0 1000)
    100 0 171 (by decide)).2 (by decide)).1
  simpa [PCF8574.init, pinMask] using h

/-- C5: when a `Scanning` device's transaction has completed, `PCF8574::_loop`
copies the read buffer into the input sample and moves to `Normal` on success,
and forces the input sample to all-ones and moves to `Dormant` on error; in
both cases the call returns normally, at most advancing into the next cycle
(`Scanning` after a due read, `Probing` after a due probe), so the failure
never escapes the polling entry point. -/
theorem claim5_scan_completion (dev : PCF8574)
    (currentMicros status inputBuffer : Nat)
    (hs : dev.deviceState = DevState.scanning) :
    (status = I2C_STATUS_OK →
      PCF8574.loopCompletion dev status inputBuffer =
        ({ dev with portInputState := inputBuffer % 256,
                    deviceState := DevState.normal }, []) ∧
      (PCF8574.loop dev currentMicros false status inputBuffer).1.portInputState
        = inputBuffer % 256 ∧
      ((PCF8574.loop dev currentMicros false status inputBuffer).1.deviceState
          = DevState.normal ∨
       (PCF8574.loop dev currentMicros false status inputBuffer).1.deviceState
          = DevState.scanning)) ∧
    (status ≠ I2C_STATUS_OK →
      PCF8574.loopCompletion dev status inputBuffer =
        ({ dev with portInputState := 0xff,
                    deviceState := DevState.dormant }, []) ∧
      (PCF8574.loop dev currentMicros false status inputBuffer).1.portInputState
        = 0xff ∧
      ((PCF8574.loop dev currentMicros false status inputBuffer).1.deviceState
          = DevState.dormant ∨
       (PCF8574.loop dev currentMicros false status inputBuffer).1.deviceState
          = DevState.probing)) := by
  constructor
  · intro h
    have hcomp : PCF8574.loopCompletion dev status inputBuffer =
        ({ dev with portInputState := inputBuffer % 256,
                    deviceState := DevState.normal }, []) := by
      simp [PCF8574.loopCompletion, hs, h]
    refine ⟨hcomp, ?_, ?_⟩ <;>
      by_cases htick : usub32 currentMicros dev.lastLoopEntry
          > dev.portTickTime <;>
        simp [PCF8574.loop, hcomp, PCF8574.loopTick, htick]
  · intro h
    have hcomp : PCF8574.loopCompletion dev status inputBuffer =
        ({ dev with portInputState := 0xff,
                    deviceState := DevState.dormant }, []) := by
      simp [PCF8574.loopCompletion, hs, h]
    refine ⟨hcomp, ?_, ?_⟩ <;>
      by_cases htick : usub32 currentMicros dev.lastLoopEntry
          > dev.portTickTime <;>
        simp [PCF8574.loop, hcomp, PCF8574.loopTick, htick]

/-- Witness for C5: a concrete scanning device whose transaction failed ends
the call dormant with an all-ones input sample. -/
theorem claim5_scan_completion_witness :
    (PCF8574.init 100 8 32 DevState.scanning 0 1000).deviceState
      = DevState.scanning ∧
    (7 : Nat) ≠ I2C_STATUS_OK ∧
    (PCF8574.loop (PCF8574.init 100 8 32 DevState.scanning 0 1000) 0 false 7
        85).1.portInputState = 0xff := by
  refine ⟨rfl, by decide, ?_⟩
  exact ((claim5_scan_completion (PCF8574.init 100 8 32 DevState.scanning 0 1000)
    0 7 85 rfl).2 (by decide)).2.1

/-- C6: a successful probe completion re-writes the preserved output latch to
the device — that write is the first bus action of the call, ahead of any
newly queued transaction — arms the request block for reads and moves to
`Normal`; a failed probe moves to `Dormant`.  New transactions (read when
`Normal`, probe when `Dormant`) are initiated at most once per call and only
when a full tick interval has elapsed since the last initiation, whose
timestamp is then refreshed — so a device demoted to `Dormant` probes no
earlier than one tick interval after the previous initiation. -/
theorem claim6_probe_recovery (dev : PCF8574)
    (currentMicros status inputBuffer : Nat) :
    (dev.deviceState = DevState.probing → status = I2C_STATUS_OK →
      PCF8574.loopCompletion dev status inputBuffer =
        ({ dev with reqRead := true, deviceState := DevState.normal },
         [BusAction.write dev.I2CAddress dev.portOutputState]) ∧
      ∃ rest : List BusAction,
        (PCF8574.loop dev currentMicros false status inputBuffer).2
          = BusAction.write dev.I2CAddress dev.portOutputState :: rest) ∧
    (dev.deviceState = DevState.probing → status ≠ I2C_STATUS_OK →
      PCF8574.loopCompletion dev status inputBuffer =
        ({ dev with deviceState := DevState.dormant }, [])) ∧
    (∀ busy : Bool,
      ((PCF8574.loop dev currentMicros busy status inputBuffer).2.filter
          BusAction.isQueue).length ≤ 1 ∧
      ((∃ b : Bool, BusAction.queueRequest b
          ∈ (PCF8574.loop dev currentMicros busy status inputBuffer).2) →
        usub32 currentMicros dev.lastLoopEntry > dev.portTickTime ∧
        (PCF8574.loop dev currentMicros busy status
            inputBuffer).1.lastLoopEntry = currentMicros) ∧
      (usub32 currentMicros dev.lastLoopEntry ≤ dev.portTickTime →
        (PCF8574.loop dev currentMicros busy status inputBuffer).2.filter
          BusAction.isQueue = [] ∧
        (PCF8574.loop dev currentMicros busy status
            inputBuffer).1.lastLoopEntry = dev.lastLoopEntry)) := by
  refine ⟨?_, ?_, ?_⟩
  · intro hs h
    have hcomp : PCF8574.loopCompletion dev status inputBuffer =
        ({ dev with reqRead := true, deviceState := DevState.normal },
         [BusAction.write dev.I2CAddress dev.portOutputState]) := by
      simp [PCF8574.loopCompletion, hs, h]
    refine ⟨hcomp, ?_⟩
    by_cases htick : usub32 currentMicros dev.lastLoopEntry
        > dev.portTickTime <;>
      simp [PCF8574.loop, hcomp, PCF8574.loopTick, htick]
  · intro hs h
    simp [PCF8574.loopCompletion, hs, h]
  · intro busy
    cases busy with
    | true => simp [PCF8574.loop]
    | false =>
      by_cases htick : usub32 currentMicros dev.lastLoopEntry
          > dev.portTickTime <;>
        cases hs : dev.deviceState <;>
          by_cases h : status = I2C_STATUS_OK <;>
            simp [PCF8574.loop, PCF8574.loopCompletion, PCF8574.loopTick, hs, h,
              htick, BusAction.isQueue]

/-- Witness for C6: a probing device whose probe succeeded first re-writes its
latch byte; with the tick interval not yet elapsed no new transaction is
queued. -/
theorem claim6_probe_recovery_witness :
    (PCF8574.init 100 8 32 DevState.probing 0 1000).deviceState
      = DevState.probing ∧
    (0 : Nat) = I2C_STATUS_OK ∧
    (∃ rest : List BusAction,
      (PCF8574.loop (PCF8574.init 100 8 32 DevState.probing 0 1000) 0 false 0
          33).2 = BusAction.write 32 0 :: rest) ∧
    usub32 0 (PCF8574.init 100 8 32 DevState.probing 0 1000).lastLoopEntry
      ≤ (PCF8574.init 100 8 32 DevState.probing 0 1000).portTickTime ∧
    (PCF8574.loop (PCF8574.init 100 8 32 DevState.probing 0 1000) 0 false 0
        33).2.filter BusAction.isQueue = [] := by
  refine ⟨rfl, rfl, ?_, by decide, ?_⟩
  · have h := ((claim6_probe_recovery (PCF8574.init 100 8 32 DevState.probing 0 1000)
      0 0 33).1 rfl rfl).2
    simpa [PCF8574.init] using h
  · exact (((claim6_probe_recovery (PCF8574.init 100 8 32 DevState.probing 0 1000)
      0 0 33).2.2 false).2.2 (by decide)).1

/-- C2 counterexample: on a freshly constructed device (cached input sample
zero) writing V = 1 to the first line and immediately reading it back yields
0, not 1 — the read takes the cached-sample path because the latch bit is
already set, and the cache still holds the old scan. -/
theorem claim2_write_read_counterexample :
    (PCF8574.read
        ((PCF8574.write (PCF8574.init 100 8 32 DevState.normal 0 1000) 100 1).1)
        100 I2C_STATUS_OK 0).1 ≠ 1 := by decide

/-- A single-bit byte mask is below 256. -/
theorem two_pow_lt_256 (p : Nat) (hp : p < 8) : 2 ^ p < 256 :=
  Nat.lt_of_lt_of_le (Nat.pow_lt_pow_right (by omega) hp) (by omega)

/-- C2 amended: writing 1 to a line and then reading it returns 1 only once a
successful scan completion has copied a sample with that line high (such as
the port mirroring the latch) into the cache — the read itself issues no bus
transaction; writing 0 and then reading forces the latch bit back to 1 and
returns the freshly sampled bit, not necessarily 0. -/
theorem claim2_write_read_amended (dev : PCF8574) (vpin : Int)
    (status readByte : Nat) (hp : (vpin - dev.firstVpin).toNat < 8) :
    (PCF8574.read
        ((PCF8574.loopCompletion
            { (PCF8574.write dev vpin 1).1 with deviceState := DevState.scanning }
            I2C_STATUS_OK
            (PCF8574.write dev vpin 1).1.portOutputState).1)
        vpin status readByte).1 = 1 ∧
    (∀ b : Nat,
      (PCF8574.read ((PCF8574.write dev vpin 0).1) vpin I2C_STATUS_OK b).1
        = (if b % 256 &&& pinMask dev vpin ≠ 0 then 1 else 0)) := by
  have hm : (2 : Nat) ^ (vpin - dev.firstVpin).toNat % 256
      = 2 ^ (vpin - dev.firstVpin).toNat :=
    Nat.mod_eq_of_lt (two_pow_lt_256 _ hp)
  constructor
  · have hA : ¬ ((dev.portOutputState ||| 2 ^ (vpin - dev.firstVpin).toNat)
        &&& 2 ^ (vpin - dev.firstVpin).toNat = 0) := by
      rw [← Ne, and_two_pow_ne_zero]
      simp [Nat.testBit_two_pow_self]
    have hbit : ((dev.portOutputState ||| 2 ^ (vpin - dev.firstVpin).toNat) % 256)
        &&& 2 ^ (vpin - dev.firstVpin).toNat ≠ 0 := by
      rw [and_two_pow_ne_zero]
      have h256 : (256 : Nat) = 2 ^ 8 := rfl
      rw [h256, Nat.testBit_mod_two_pow]
      simp [hp, Nat.testBit_two_pow_self]
    simp [PCF8574.read, PCF8574.loopCompletion, PCF8574.write, pinMask, hm,
      hA, hbit]
  · intro b
    have h255 : (255 : Nat).testBit (vpin - dev.firstVpin).toNat = true := by
      have h : (255 : Nat) = 2 ^ 8 - 1 := rfl
      rw [h, Nat.testBit_two_pow_sub_one]
      simp [hp]
    have hb : (dev.portOutputState
        &&& (2 ^ (vpin - dev.firstVpin).toNat ^^^ 255)).testBit
          (vpin - dev.firstVpin).toNat = false := by
      rw [Nat.testBit_and, Nat.testBit_xor, h255, Nat.testBit_two_pow_self]
      simp
    have hB : (dev.portOutputState &&& (2 ^ (vpin - dev.firstVpin).toNat ^^^ 255))
        &&& 2 ^ (vpin - dev.firstVpin).toNat = 0 := by
      rw [Nat.and_two_pow, hb]
      simp
    simp [PCF8574.read, PCF8574.write, pinMask, hm, hB, I2C_STATUS_OK]

/-- Witness for the amended C2: on a concrete device, write 1, a successful
scan whose sample mirrors the latch, then read — the read returns 1. -/
theorem claim2_write_read_amended_witness :
    ((100 : Int) - (PCF8574.init 100 8 32 DevState.normal 0 1000).firstVpin).toNat
      < 8 ∧
    (PCF8574.read
        ((PCF8574.loopCompletion
            { (PCF8574.write (PCF8574.init 100 8 32 DevState.normal 0 1000) 100
                1).1 with deviceState := DevState.scanning }
            I2C_STATUS_OK
            (PCF8574.write (PCF8574.init 100 8 32 DevState.normal 0 1000) 100
                1).1.portOutputState).1)
        100 0 0).1 = 1 :=
  ⟨by decide,
   (claim2_write_read_amended (PCF8574.init 100 8 32 DevState.normal 0 1000)
     100 0 0 (by decide)).1⟩
